import Mathlib

/-!
Verification of the `IfElif` conditional-expression engine
(`src/Packs/FiltersAndTransformers/Scripts/IfElif/IfElif.py`).

The engine parses a textual boolean/comparison expression into an AST
(Python's `ast.parse`, standard library), evaluates it with `IfElif.get_value`,
and selects a branch with `IfElif.parse_conditions`.  This file is a shallow
embedding of that code:

* `Value` models the Python runtime values the engine manipulates
  (`None`, `bool`, `int`, `str`, `list`, `dict`).  The number domain is
  modelled by integers; no claim involves floating point.  Dictionary keys
  are hashable in Python, hence atomic (never `list`/`dict`) — `get_value`
  raises `TypeError` on an unhashable key before a non-atomic key can enter
  a dictionary, and the embedding does the same.
* `Node` models the supported subset of Python's `ast` node types, with the
  operator lists of `ast.Compare`/`ast.BoolOp` already zipped as in the
  source (`zip(node.ops, node.comparators)`).
* Errors are modelled by `Err`; each constructor corresponds to the Python
  exception raised at the site it is used (see the doc comments).

`Value` and `Node` are mutual inductives with their own list types so that
every function of the embedding is structurally recursive and therefore
kernel-computable on concrete inputs.
-/

mutual

/-- A Python runtime value as used by the engine: `None`, `bool`, `int`,
`str`, `list`, `dict` (numbers modelled by integers). -/
inductive Value where
  | none : Value
  | bool (b : Bool) : Value
  | int (n : Int) : Value
  | str (s : String) : Value
  | list (elts : ValueList) : Value
  | dict (entries : ValueDict) : Value

/-- A list of runtime values (the payload of `Value.list`). -/
inductive ValueList where
  | nil : ValueList
  | cons (head : Value) (tail : ValueList) : ValueList

/-- The entries of a Python dictionary, in insertion order.  Construction
goes through `dictInsert`, which keeps keys unique (last write wins), as
Python dictionaries do. -/
inductive ValueDict where
  | nil : ValueDict
  | cons (key : Value) (val : Value) (tail : ValueDict) : ValueDict

end

/-- The `ValueList` payload of a `list` value, as a plain Lean list. -/
def ValueList.toList : ValueList → List Value
  | .nil => []
  | .cons v t => v :: t.toList

/-- Build a `ValueList` from a plain Lean list. -/
def ValueList.ofList : List Value → ValueList
  | [] => .nil
  | v :: t => .cons v (ValueList.ofList t)

/-- Python truthiness: `None`, `False`, `0`, `""`, `[]` and the empty dict
are falsy, everything else is truthy. -/
def truthy : Value → Bool
  | .none => false
  | .bool b => b
  | .int n => n != 0
  | .str s => s != ""
  | .list .nil => false
  | .list (.cons _ _) => true
  | .dict .nil => false
  | .dict (.cons _ _ _) => true

/-- View a value as an integer the way Python's numeric comparisons do:
`bool` is a subclass of `int`, so `True` compares equal to `1` and `False`
to `0`. -/
def toIntLike : Value → Option Int
  | .int n => some n
  | .bool b => some (if b then 1 else 0)
  | _ => Option.none

/-- Equality of atomic (hashable) values, used for dictionary keys:
`None`, booleans, integers and strings, with Python's `bool`/`int`
identification (`{True: v}` and `{1: v}` collide). -/
def atomEq (x y : Value) : Bool :=
  match x, y with
  | .none, .none => true
  | .str a, .str b => a == b
  | _, _ =>
    match toIntLike x, toIntLike y with
    | some a, some b => a == b
    | _, _ => false

/-- Whether a value may be a dictionary key (Python: hashable). -/
def hashableKey : Value → Bool
  | .list _ => false
  | .dict _ => false
  | _ => true

/-- Number of entries of a dictionary. -/
def dictLen : ValueDict → Nat
  | .nil => 0
  | .cons _ _ t => dictLen t + 1

/-- Look up a dictionary entry by atomic key equality. -/
def dictFind : ValueDict → Value → Option Value
  | .nil, _ => Option.none
  | .cons k v t, key => if atomEq key k then some v else dictFind t key

/-- Insert with last-write-wins on an existing key, keeping its position,
as Python dictionary assignment does. -/
def dictInsert : ValueDict → Value → Value → ValueDict
  | .nil, k, v => .cons k v .nil
  | .cons k' v' t, k, v =>
    if atomEq k k' then .cons k' v t else .cons k' v' (dictInsert t k v)

mutual

/-- Python structural equality `x == y` on the runtime values of the
engine: `None` equals only `None`, numbers compare with `bool`/`int`
identification, strings by content, lists element-wise, dictionaries by
key/value sets.  Mixed kinds compare unequal (never an error). -/
def pyEq : Value → Value → Bool
  | .none, .none => true
  | .none, _ => false
  | .bool a, y =>
    (match toIntLike y with
     | some b => ((if a then 1 else 0) : Int) == b
     | Option.none => false)
  | .int a, y =>
    (match toIntLike y with
     | some b => a == b
     | Option.none => false)
  | .str a, .str b => a == b
  | .str _, _ => false
  | .list a, .list b => pyEqList a b
  | .list _, _ => false
  | .dict a, .dict b => dictLen a == dictLen b && pyEqEntries a b
  | .dict _, _ => false

/-- Element-wise list equality. -/
def pyEqList : ValueList → ValueList → Bool
  | .nil, .nil => true
  | .cons x t, .cons y t' => pyEq x y && pyEqList t t'
  | _, _ => false

/-- Every entry of the first dictionary is present (by key) in the second
with an equal value. -/
def pyEqEntries : ValueDict → ValueDict → Bool
  | .nil, _ => true
  | .cons k v t, d =>
    (match dictFind d k with
     | some w => pyEq v w
     | Option.none => false)
    && pyEqEntries t d

end

/-- Lexicographic comparison of character lists (Python string ordering). -/
def strCompare : List Char → List Char → Ordering
  | [], [] => .eq
  | [], _ :: _ => .lt
  | _ :: _, [] => .gt
  | a :: as', b :: bs' =>
    if a = b then strCompare as' bs'
    else if a < b then .lt else .gt

mutual

/-- Python ordering `x < y` (and friends), defined on compatible operand
kinds only: numbers (with `bool` as `0`/`1`), strings, and lists
(lexicographic, recursing into elements).  Any other combination raises
`TypeError` in Python, modelled by `Err.typeError` at the call sites. -/
def pyCompare : Value → Value → Option Ordering
  | .str a, .str b => some (strCompare a.data b.data)
  | .list a, .list b => pyCompareList a b
  | x, y =>
    match toIntLike x, toIntLike y with
    | some a, some b => some (compare a b)
    | _, _ => Option.none

/-- Python list ordering: first unequal elements decide; a strict prefix is
smaller. -/
def pyCompareList : ValueList → ValueList → Option Ordering
  | .nil, .nil => some .eq
  | .nil, .cons _ _ => some .lt
  | .cons _ _, .nil => some .gt
  | .cons x t, .cons y t' =>
    if pyEq x y then pyCompareList t t' else pyCompare x y

end

mutual

/-- Python `repr` of a runtime value, restricted to the value domain of the
engine: `None`/`True`/`False`, decimal integers, quoted strings (single
quotes by default, double quotes when the string contains a single quote
and no double quote, with `\`, quote, newline, tab and carriage-return
escapes — exotic characters are out of scope of the claims), and bracketed
lists/dictionaries. -/
def pyRepr : Value → String
  | .none => "None"
  | .bool true => "True"
  | .bool false => "False"
  | .int n => toString n
  | .str s =>
    let q : Char := if s.data.contains (Char.ofNat 39) && !s.data.contains (Char.ofNat 34)
      then Char.ofNat 34 else Char.ofNat 39
    String.mk (q :: reprEscape q s.data ++ [q])
  | .list l => "[" ++ pyReprList l ++ "]"
  | .dict d => "\x7b" ++ pyReprDict d ++ "\x7d"

/-- Escape the body of a string for `pyRepr`. -/
def reprEscape (q : Char) : List Char → List Char
  | [] => []
  | c :: rest =>
    (if c = '\\' then ['\\', '\\']
     else if c = q then ['\\', q]
     else if c = Char.ofNat 10 then ['\\', 'n']
     else if c = Char.ofNat 9 then ['\\', 't']
     else if c = Char.ofNat 13 then ['\\', 'r']
     else [c]) ++ reprEscape q rest

/-- Comma-separated `repr`s of list elements. -/
def pyReprList : ValueList → String
  | .nil => ""
  | .cons v .nil => pyRepr v
  | .cons v t => pyRepr v ++ ", " ++ pyReprList t

/-- Comma-separated `key: value` `repr`s of dictionary entries. -/
def pyReprDict : ValueDict → String
  | .nil => ""
  | .cons k v .nil => pyRepr k ++ ": " ++ pyRepr v
  | .cons k v t => pyRepr k ++ ": " ++ pyRepr v ++ ", " ++ pyReprDict t

end

/-- ASCII lower-casing, as Python's `str.lower` on the ASCII strings the
claims use. -/
def lowerStr (s : String) : String := String.mk (s.data.map Char.toLower)

/-- The failure modes of one invocation.  Each constructor models the
Python exception raised at the site where the embedding uses it:
`syntaxError` for the `SyntaxError` raised by `IfElif.evaluate` when
`ast.parse` fails (the source wraps every parse failure, including
`TypeError` on a non-string argument, into this `SyntaxError`);
`nameError` for the `json.JSONDecodeError` raised by `json.loads(node.id)`
on an identifier that is not a JSON literal (the spec's `UnboundNameError`);
`unknownFunction` for the `KeyError` raised by the
`self.functions[node.func.id]` registry lookup (the spec's
`UnknownFunctionError`); `keyError` for the `KeyError` of a dictionary
subscript such as `condition['return']`; `typeError` and `valueError` for
Python's `TypeError`/`ValueError`. -/
inductive Err where
  | syntaxError (text : String)
  | nameError (id : String)
  | unknownFunction (name : String)
  | keyError (key : String)
  | typeError (msg : String)
  | valueError (msg : String)

/-- The comparison operator kinds of the engine (`ast.Eq`, `ast.NotEq`,
`ast.Lt`, `ast.LtE`, `ast.Gt`, `ast.GtE`, `ast.In`, `ast.NotIn`). -/
inductive CmpOperator where
  | eq | ne | lt | le | gt | ge | mem | notMem

/-- The boolean operator kinds (`ast.And`, `ast.Or`). -/
inductive BoolOperator where
  | band | bor

/-- The unary operator kinds (`ast.Not`, `ast.USub`). -/
inductive UnaryOperator where
  | unot | usub

mutual

/-- The AST subset `IfElif.get_value` dispatches on: `ast.Constant`,
`ast.List`, `ast.Dict`, `ast.Name`, `ast.Call` (whose target is a plain
name, as the source's `node.func.id` requires), `ast.Compare` (with
`ops`/`comparators` zipped into pairs, as `zip(node.ops, node.comparators)`
does), `ast.BoolOp` and `ast.UnaryOp`.  Unsupported node kinds, which the
source maps to `SyntaxError`, are excluded by construction. -/
inductive Node where
  | constant (v : Value) : Node
  | listLit (elts : NodeList) : Node
  | dictLit (pairs : NodePairs) : Node
  | name (id : String) : Node
  | call (func : String) (args : NodeList) : Node
  | compare (left : Node) (rest : CmpList) : Node
  | boolOp (op : BoolOperator) (values : NodeList) : Node
  | unaryOp (op : UnaryOperator) (operand : Node) : Node

/-- A list of AST nodes (list elements, call arguments, `BoolOp` operands). -/
inductive NodeList where
  | nil : NodeList
  | cons (head : Node) (tail : NodeList) : NodeList

/-- The zipped `(op, comparator)` pairs of an `ast.Compare` node. -/
inductive CmpList where
  | nil : CmpList
  | cons (op : CmpOperator) (comparator : Node) (tail : CmpList) : CmpList

/-- The `(key, value)` expression pairs of an `ast.Dict` node. -/
inductive NodePairs where
  | nil : NodePairs
  | cons (key : Node) (value : Node) (tail : NodePairs) : NodePairs

end

/-- Append of comparison-pair lists. -/
def CmpList.append : CmpList → CmpList → CmpList
  | .nil, ys => ys
  | .cons op c t, ys => .cons op c (t.append ys)

/-- Python's default `==` on the engine's values, as the source's
`lambda x, y: x == y` (never raises on these kinds). -/
def opEqDefault (x y : Value) : Except Err Value := .ok (.bool (pyEq x y))

/-- Python's default `!=` (`lambda x, y: x != y`). -/
def opNeDefault (x y : Value) : Except Err Value := .ok (.bool (!pyEq x y))

/-- Shared implementation of the four ordering operators: Python raises
`TypeError` across incompatible kinds. -/
def opOrder (keep : Ordering → Bool) (x y : Value) : Except Err Value :=
  match pyCompare x y with
  | some o => .ok (.bool (keep o))
  | Option.none => .error (.typeError "ordering not supported between operands")

/-- Membership `x in y`: element test for lists (Python `==` on elements),
substring test for strings, key test for dictionaries; `TypeError`
otherwise (including an unhashable key probe into a dictionary). -/
def pyMem (x y : Value) : Except Err Value :=
  match y with
  | .list l => .ok (.bool (memList x l))
  | .str s =>
    (match x with
     | .str sub => .ok (.bool (isInfixChars sub.data s.data))
     | _ => .error (.typeError "'in <string>' requires string as left operand"))
  | .dict d =>
    if hashableKey x then .ok (.bool ((dictFind d x).isSome))
    else .error (.typeError "unhashable type")
  | _ => .error (.typeError "argument is not iterable")
where
  memList (x : Value) : ValueList → Bool
    | .nil => false
    | .cons v t => pyEq x v || memList x t
  isInfixChars (pat : List Char) (s : List Char) : Bool :=
    isPrefixChars pat s ||
      (match s with
       | [] => false
       | _ :: rest => isInfixChars pat rest)
  isPrefixChars : List Char → List Char → Bool
    | [], _ => true
    | _ :: _, [] => false
    | a :: ps, b :: ss => a == b && isPrefixChars ps ss

/-- `x and y` on values, Python semantics: the deciding operand itself is
returned, not a canonical boolean. -/
def pyAnd (x y : Value) : Value := if truthy x then y else x

/-- `x or y` on values, Python semantics. -/
def pyOr (x y : Value) : Value := if truthy x then x else y

/-- `not x` (canonical boolean). -/
def pyNot (x : Value) : Value := .bool (!truthy x)

/-- Unary minus: numeric negation, `TypeError` on non-numeric operands
(`-True` is `-1` in Python, since `bool` is an `int`). -/
def pyUSub (x : Value) : Except Err Value :=
  match toIntLike x with
  | some n => .ok (.int (-n))
  | Option.none => .error (.typeError "bad operand type for unary -")

/-- The engine's operator table, modelling the `IfElif.operator_functions`
dictionary: one entry per supported `ast` operator class.  In the source
this is a single `dict`; a structure with one field per key is the same
data with the keys checked statically. -/
structure OperatorFunctions where
  eq : Value → Value → Except Err Value
  ne : Value → Value → Except Err Value
  lt : Value → Value → Except Err Value
  le : Value → Value → Except Err Value
  gt : Value → Value → Except Err Value
  ge : Value → Value → Except Err Value
  mem : Value → Value → Except Err Value
  notMem : Value → Value → Except Err Value
  band : Value → Value → Value
  bor : Value → Value → Value
  unot : Value → Value
  usub : Value → Except Err Value

/-- The initial class-level value of `IfElif.operator_functions`
(`IfElif.py` lines 9–25), entry by entry. -/
def operator_functions : OperatorFunctions where
  eq := opEqDefault
  ne := opNeDefault
  lt := opOrder (· == .lt)
  le := opOrder (· != .gt)
  gt := opOrder (· == .gt)
  ge := opOrder (· != .lt)
  mem := pyMem
  notMem := fun x y => (pyMem x y).map fun r => .bool (!truthy r)
  band := pyAnd
  bor := pyOr
  unot := pyNot
  usub := pyUSub

/-- The case-insensitive equality installed by `IfElif.handle_flags`
(lines 43–45): `repr(x).lower() == repr(y).lower()`. -/
def ciEqB (x y : Value) : Bool := lowerStr (pyRepr x) == lowerStr (pyRepr y)

/-- The function registered under `regex_match`:
`partial(re.fullmatch | re.search, flags=...)` applied to
`(pattern, string)`.  Python's regex engine is standard-library code,
external to the repository; it is modelled here for literal
(metacharacter-free) patterns, with a `Match` object represented by its
truthiness (`Value.bool true`) and a failed match by `None`, which is all
the engine ever observes of it.  `re.DOTALL` and `re.MULTILINE` only
change the meaning of metacharacters and so do not appear in the literal
model; `re.IGNORECASE` case-folds, and `regex_full_match` selects whole-
string equality over substring search.  Non-string arguments raise
`TypeError` in `re.search`/`re.fullmatch`. -/
def regexMatchFn (fullMatch ignoreCase : Bool) : List Value → Except Err Value
  | [.str pat, .str s] =>
    let p := if ignoreCase then lowerStr pat else pat
    let t := if ignoreCase then lowerStr s else s
    let hit := if fullMatch then p == t else isSubstrChars p.data t.data
    .ok (if hit then .bool true else .none)
  | _ => .error (.typeError "regex_match expects a pattern string and a subject string")
where
  isSubstrChars (pat : List Char) (s : List Char) : Bool :=
    isPrefixChars pat s ||
      (match s with
       | [] => false
       | _ :: rest => isSubstrChars pat rest)
  isPrefixChars : List Char → List Char → Bool
    | [], _ => true
    | _ :: _, [] => false
    | a :: ps, b :: ss => a == b && isPrefixChars ps ss

/-- `IfElif.handle_flags` (lines 31–49).  The first argument is the current
value of the class attribute `IfElif.operator_functions`: the source's
`self.operator_functions |= {...}` reads that class-level dictionary,
updates it **in place**, and re-binds it on the instance — so the instance
table and the class table are afterwards the same object.  The function
therefore returns the pair (operator table of the new instance = class
table after the call, function registry of the new instance); when
`case_insensitive` is absent nothing restores the `Eq`/`NotEq` entries, so
a table polluted by an earlier invocation is used as is. -/
def handle_flags (classOps : OperatorFunctions) (flags : List String) :
    OperatorFunctions × (String → Option (List Value → Except Err Value)) :=
  let fns : String → Option (List Value → Except Err Value) := fun n =>
    if n = "regex_match" then
      some (regexMatchFn (flags.contains "regex_full_match") (flags.contains "case_insensitive"))
    else Option.none
  if flags.contains "case_insensitive" then
    ({ classOps with
        eq := fun x y => .ok (.bool (ciEqB x y)),
        ne := fun x y => .ok (.bool (!ciEqB x y)) },
     fns)
  else (classOps, fns)

/-- The per-instance state `IfElif.__init__` leaves behind for
`get_value`: the operator table (`self.operator_functions`) and the
function registry (`self.functions`). -/
structure Engine where
  ops : OperatorFunctions
  functions : String → Option (List Value → Except Err Value)

/-- Dispatch a comparison operator through the instance's operator table,
as `self.operator_functions[type(op)](x, y)` does. -/
def applyCmp (e : Engine) : CmpOperator → Value → Value → Except Err Value
  | .eq => e.ops.eq
  | .ne => e.ops.ne
  | .lt => e.ops.lt
  | .le => e.ops.le
  | .gt => e.ops.gt
  | .ge => e.ops.ge
  | .mem => e.ops.mem
  | .notMem => e.ops.notMem

/-- Dispatch a boolean operator through the operator table. -/
def applyBool (e : Engine) : BoolOperator → Value → Value → Value
  | .band => e.ops.band
  | .bor => e.ops.bor

/-- Dispatch a unary operator through the operator table. -/
def applyUnary (e : Engine) : UnaryOperator → Value → Except Err Value
  | .unot => fun x => .ok (e.ops.unot x)
  | .usub => e.ops.usub

/-- `json.loads(node.id)` on an identifier (`IfElif.get_value`, `ast.Name`
case, lines 67–68): the only identifiers that are JSON documents are
`true`, `false` and `null`; every other identifier makes `json.loads`
raise (`NameError`-like `json.JSONDecodeError`, the spec's
`UnboundNameError`).  Python's `json` would additionally accept the float
specials `NaN`/`Infinity`, which are outside the integer number model and
never appear in any claim. -/
def jsonLoadsId (s : String) : Except Err Value :=
  if s = "true" then .ok (.bool true)
  else if s = "false" then .ok (.bool false)
  else if s = "null" then .ok .none
  else .error (.nameError s)

mutual

/-- `IfElif.get_value` (lines 56–88), case by case:
constants return their payload; list displays evaluate their elements in
order; dict displays evaluate key then value pair by pair and insert with
last-write-wins (an unhashable key raises `TypeError`); names go through
`json.loads`; calls look the target up in `self.functions` **before**
evaluating the arguments (`self.functions[node.func.id]` is evaluated
first, so an unknown name raises `KeyError` even if an argument would
fail) and then apply it to the evaluated arguments; comparisons evaluate
the left operand and walk the zipped `(op, comparator)` pairs
(`get_value_chain`); boolean operations left-fold the operator over the
operand values (`get_value_fold`); unary operations apply the table
entry to the evaluated operand. -/
def get_value (e : Engine) : Node → Except Err Value
  | .constant v => .ok v
  | .listLit elts => (get_value_list e elts).map Value.list
  | .dictLit pairs => (get_value_dict e pairs .nil).map Value.dict
  | .name s => jsonLoadsId s
  | .call f args =>
    match e.functions f with
    | some fn => (get_value_list e args).bind fun vs => fn vs.toList
    | Option.none => .error (.unknownFunction f)
  | .compare l rest => (get_value e l).bind fun lv => get_value_chain e lv rest
  | .boolOp op values =>
    match values with
    | .nil => .error (.typeError "reduce of empty iterable with no initial value")
    | .cons v t => (get_value e v).bind fun v0 => get_value_fold e op v0 t
  | .unaryOp op x => (get_value e x).bind fun xv => applyUnary e op xv

/-- Evaluate a node list left to right, stopping at the first error
(Python's list comprehension / argument unpacking). -/
def get_value_list (e : Engine) : NodeList → Except Err ValueList
  | .nil => .ok .nil
  | .cons n t =>
    (get_value e n).bind fun v => (get_value_list e t).map fun vs => .cons v vs

/-- Evaluate the pairs of a dict display: key, then value, then insertion
(last write wins); an unhashable key raises `TypeError` at insertion. -/
def get_value_dict (e : Engine) : NodePairs → ValueDict → Except Err ValueDict
  | .nil, acc => .ok acc
  | .cons k v t, acc =>
    (get_value e k).bind fun kv =>
      (get_value e v).bind fun vv =>
        if hashableKey kv then get_value_dict e t (dictInsert acc kv vv)
        else .error (.typeError "unhashable type")

/-- The `ast.Compare` walk (lines 71–78): the source evaluates
`all(op(left, left := get_value(right)) for op, right in zip(...))`, a
generator consumed by `all`, which **stops at the first falsy pairwise
result** — later comparators are then never evaluated and the result is
the canonical `False`; while the results stay truthy, each comparator
value becomes the new left operand. -/
def get_value_chain (e : Engine) (prev : Value) : CmpList → Except Err Value
  | .nil => .ok (.bool true)
  | .cons op rhs rest =>
    (get_value e rhs).bind fun cur =>
      (applyCmp e op prev cur).bind fun r =>
        if truthy r then get_value_chain e cur rest else .ok (.bool false)

/-- The `ast.BoolOp` fold (lines 79–82): the source is
`reduce(self.operator_functions[type(node.op)], map(self.get_value, node.values))`.
`map` is lazy but `functools.reduce` consumes the whole iterator, pulling
(and hence evaluating) **every** operand before applying the pairwise
operator — there is no short-circuit; only the folded value follows the
`and`/`or` value semantics. -/
def get_value_fold (e : Engine) (op : BoolOperator) (acc : Value) :
    NodeList → Except Err Value
  | .nil => .ok acc
  | .cons n t =>
    (get_value e n).bind fun w => get_value_fold e op (applyBool e op acc w) t

end

/-- `IfElif.evaluate` (lines 90–96): `ast.parse` (Python standard library,
external to the repository, here a parameter) inside a `try` that wraps
**any** parse failure into `SyntaxError('Cannot parse expression: ...')`,
then `get_value` on the body. -/
def evaluate (parse : String → Except Err Node) (e : Engine) (s : String) :
    Except Err Value :=
  match parse s with
  | .ok n => get_value e n
  | .error _ => .error (.syntaxError s)

/-- Python subscription `v[k]` as used by `parse_conditions`
(`default['else']`, `condition['condition']`, `condition['return']` —
the key is always a string constant there): a dictionary lookup that
raises `KeyError` when the key is absent; subscripting any non-dictionary
value with a string key raises `TypeError` in Python. -/
def subscript (v : Value) (k : Value) : Except Err Value :=
  match v with
  | .dict d =>
    if hashableKey k then
      match dictFind d k with
      | some w => .ok w
      | Option.none => .error (.keyError (pyRepr k))
    else .error (.typeError "unhashable type")
  | _ => .error (.typeError "value is not subscriptable by a string key")

/-- Python iteration `iter(v)` for the starred unpacking
`*conditions, default = ...`: lists yield their elements, strings their
characters (as one-character strings), dictionaries their keys; any other
value raises `TypeError` (`cannot unpack non-iterable ...`). -/
def pyElements (v : Value) : Except Err (List Value)
  := match v with
  | .list l => .ok l.toList
  | .str s => .ok (s.data.map fun c => .str (String.mk [c]))
  | .dict d => .ok (dictKeys d)
  | _ => .error (.typeError "cannot unpack non-iterable value")
where
  dictKeys : ValueDict → List Value
    | .nil => []
    | .cons k _ t => k :: dictKeys t

/-- The starred unpacking `*conditions, default = self.evaluate(...)`
(line 99): iterate the value, then split off the last element; an empty
iterable raises `ValueError` (`not enough values to unpack`). -/
def pyUnpackLast (v : Value) : Except Err (List Value × Value) :=
  (pyElements v).bind fun xs =>
    match xs.getLast? with
    | some last => .ok (xs.dropLast, last)
    | Option.none => .error (.valueError "not enough values to unpack")

/-- `self.evaluate(condition['condition'])`: the condition value must be an
expression string; `ast.parse` on a non-string raises `TypeError`, which
`IfElif.evaluate`'s `except Exception` turns into its `SyntaxError`. -/
def evalCondition (parse : String → Except Err Node) (e : Engine) :
    Value → Except Err Value
  | .str s => evaluate parse e s
  | v => .error (.syntaxError (pyRepr v))

/-- The generator scan of `parse_conditions` (lines 100–107):
`next((condition['return'] for condition in conditions if
self.evaluate(condition['condition'])), default_else)`.  Entries are
visited in order; for each one the `condition` key is read (raising
`KeyError` when absent), its string is evaluated, and on the first truthy
result the entry's `return` value is the answer — the generator stops
there, so later entries are never read or evaluated.  When the scan
exhausts the list the already-computed default is returned. -/
def first_match (parse : String → Except Err Node) (e : Engine) :
    List Value → Value → Except Err Value
  | [], elseVal => .ok elseVal
  | c :: rest, elseVal =>
    (subscript c (.str "condition")).bind fun cond =>
      (evalCondition parse e cond).bind fun b =>
        if truthy b then subscript c (.str "return")
        else first_match parse e rest elseVal

/-- `IfElif.parse_conditions` (lines 98–108): evaluate the conditions
expression, unpack `*conditions, default`, and return the first matching
entry's `return` value or the default's `else` value.  Note the order:
`default['else']` is an **argument** of `next(...)` and Python evaluates
arguments eagerly, so a missing `else` key raises before any condition is
scanned, even when the first condition would match. -/
def parse_conditions (parse : String → Except Err Node) (e : Engine)
    (conditions : String) : Except Err Value :=
  (evaluate parse e conditions).bind fun v =>
    (pyUnpackLast v).bind fun cd =>
      (subscript cd.2 (.str "else")).bind fun elseVal =>
        first_match parse e cd.1 elseVal

/-- One whole invocation of the script (`IfElif.__init__` +
`parse_conditions`): `handle_flags` derives the instance state from the
current class-level operator table and the flags, then the conditions text
is evaluated and scanned.  The `#{...}` templating of
`load_conditions_with_values` calls the host's `demisto.dt` (external);
the theorems use conditions without template segments, on which the
substitution is the identity, so `conditions` here is the templated text.
The result pairs the selected value (or failure) with the class-level
operator table **after** the call, which later invocations in the same
process start from. -/
def IfElif.run (classOps : OperatorFunctions)
    (parse : String → Except Err Node) (conditions : String)
    (flags : List String) : Except Err Value × OperatorFunctions :=
  let inst := handle_flags classOps flags
  (parse_conditions parse ⟨inst.1, inst.2⟩ conditions, inst.1)

/-- The value the claims describe for a boolean `and` fold over evaluated
operands: the first falsy operand, or the last operand when none is falsy
(specification-side definition, following the claim's words). -/
def firstFalsyOrLast : Value → List Value → Value
  | w, [] => w
  | w, w' :: ws => if truthy w then firstFalsyOrLast w' ws else w

/-- Dual of `firstFalsyOrLast` for `or`: the first truthy operand, or the
last when none is truthy. -/
def firstTruthyOrLast : Value → List Value → Value
  | w, [] => w
  | w, w' :: ws => if truthy w then w else firstTruthyOrLast w' ws

/-- The list of pairwise comparison results of a chained comparison, as
the claim describes it: starting from the left value, each comparator is
evaluated, compared with the previous value, and becomes the new previous
value (specification-side definition; it evaluates every link, with no
short-circuit). -/
def chain_results (e : Engine) (prev : Value) : CmpList → Except Err (List Value)
  | .nil => .ok []
  | .cons op rhs rest =>
    (get_value e rhs).bind fun cur =>
      (applyCmp e op prev cur).bind fun r =>
        (chain_results e cur rest).map fun rs => r :: rs

/-- Walk a prefix of a chained comparison while every pairwise result is
truthy, returning the final previous value (specification-side helper for
the short-circuit claim); `none` when a link fails to evaluate or is
falsy. -/
def chain_walk (e : Engine) (prev : Value) : CmpList → Option Value
  | .nil => some prev
  | .cons op rhs rest =>
    match get_value e rhs with
    | .ok cur =>
      match applyCmp e op prev cur with
      | .ok r => if truthy r then chain_walk e cur rest else Option.none
      | .error _ => Option.none
    | .error _ => Option.none

/-- A condition entry that the scan steps over: its `condition` key holds
a string whose evaluation succeeds with a falsy value
(specification-side, decidable helper for the branch-selection claims). -/
def entrySkipped (parse : String → Except Err Node) (e : Engine) (c : Value) : Bool :=
  match subscript c (.str "condition") with
  | .ok cond =>
    (match evalCondition parse e cond with
     | .ok b => !truthy b
     | .error _ => false)
  | .error _ => false

/-- Every entry of the list is stepped over by the scan. -/
def allSkipped (parse : String → Except Err Node) (e : Engine) : List Value → Bool
  | [] => true
  | c :: rest => entrySkipped parse e c && allSkipped parse e rest

/-- A condition entry the scan selects: its `condition` key holds a string
whose evaluation succeeds with a truthy value. -/
def entryMatches (parse : String → Except Err Node) (e : Engine) (c : Value) : Bool :=
  match subscript c (.str "condition") with
  | .ok cond =>
    (match evalCondition parse e cond with
     | .ok b => truthy b
     | .error _ => false)
  | .error _ => false

/-- The engine state of a fresh process (pristine class-level operator
table) invoked with no flags. -/
def plainEngine : Engine :=
  ⟨(handle_flags operator_functions []).1, (handle_flags operator_functions []).2⟩

/-- The engine state of a fresh process invoked with the
`case_insensitive` flag. -/
def ciEngine : Engine :=
  ⟨(handle_flags operator_functions ["case_insensitive"]).1,
   (handle_flags operator_functions ["case_insensitive"]).2⟩

/-- Drop leading whitespace characters. -/
def skipWs : List Char → List Char
  | [] => []
  | c :: t => if c.isWhitespace then skipWs t else c :: t

/-- Trim whitespace from both ends of a character list. -/
def trimChars (cs : List Char) : List Char :=
  ((skipWs cs).reverse |> skipWs).reverse

/-- Split a character list on a separator character (the pieces do not
contain the separator; `n` separators give `n + 1` pieces). -/
def splitOnChar (sep : Char) : List Char → List (List Char)
  | [] => [[]]
  | c :: t =>
    let r := splitOnChar sep t
    if c = sep then [] :: r
    else
      match r with
      | [] => [[c]]
      | h :: t' => (c :: h) :: t'

/-- Split a line at its first `=`, returning the parts before and after;
`none` when the line has no `=`. -/
def splitFirstEq : List Char → Option (List Char × List Char)
  | [] => Option.none
  | c :: t =>
    if c = '=' then some ([], t)
    else (splitFirstEq t).map fun lr => (c :: lr.1, lr.2)

/-- Body of a quoted string literal: everything up to the closing double
quote, with `\"`-style escapes (`\n` for a newline); returns the content
and the remainder after the closing quote. -/
def parseStrBody : List Char → Option (List Char × List Char)
  | [] => Option.none
  | c :: t =>
    if c = Char.ofNat 34 then some ([], t)
    else if c = '\\' then
      match t with
      | [] => Option.none
      | e :: t' =>
        (parseStrBody t').map fun br =>
          ((if e = 'n' then Char.ofNat 10 else e) :: br.1, br.2)
    else (parseStrBody t).map fun br => (c :: br.1, br.2)

/-- Leading decimal digits of a character list and the remainder. -/
def spanDigits : List Char → List Char × List Char
  | [] => ([], [])
  | c :: t =>
    if c.isDigit then
      let r := spanDigits t
      (c :: r.1, r.2)
    else ([], c :: t)

/-- Natural number denoted by a list of decimal digits. -/
def natOfDigits (ds : List Char) : Nat :=
  ds.foldl (fun acc c => acc * 10 + (c.toNat - 48)) 0

/-- Leading identifier-like word (letters) and the remainder. -/
def spanAlpha : List Char → List Char × List Char
  | [] => ([], [])
  | c :: t =>
    if c.isAlpha then
      let r := spanAlpha t
      (c :: r.1, r.2)
    else ([], c :: t)

mutual

/-- Modelled from the spec: the literal-only right-hand-side parser of the
variables block (spec §4.2 — "the right-hand side is evaluated using a
literal-only parser (numbers/bools/null/strings/containers)").  The
engine variant that owns this parser is part of the repository but not
included under `src/` (the spec notes the engine core is duplicated once
in the repository and that the two variants differ in variable handling).
`fuel` bounds the recursion depth; `parse_literal` supplies enough for
its input.  Returns the parsed literal and the unconsumed remainder. -/
def parseLit : Nat → List Char → Option (Value × List Char)
  | 0, _ => Option.none
  | fuel + 1, cs =>
    match skipWs cs with
    | [] => Option.none
    | c :: rest =>
      if c = Char.ofNat 34 then
        (parseStrBody rest).map fun br => (.str (String.mk br.1), br.2)
      else if c = '[' then
        match skipWs rest with
        | ']' :: r' => some (.list .nil, r')
        | cs' => (parseItems fuel cs').map fun vr => (.list (ValueList.ofList vr.1), vr.2)
      else if c = Char.ofNat 123 then
        match skipWs rest with
        | r0 :: r' =>
          if r0 = Char.ofNat 125 then some (.dict .nil, r')
          else (parsePairs fuel (r0 :: r')).map fun pr =>
            (.dict (pr.1.foldl (fun d kv => dictInsert d kv.1 kv.2) .nil), pr.2)
        | [] => Option.none
      else if c = '-' then
        match spanDigits rest with
        | ([], _) => Option.none
        | (ds, r') => some (.int (-(natOfDigits ds : Int)), r')
      else if c.isDigit then
        let dr := spanDigits (c :: rest)
        some (.int (natOfDigits dr.1 : Int), dr.2)
      else
        let wr := spanAlpha (c :: rest)
        if wr.1 = ['t', 'r', 'u', 'e'] then some (.bool true, wr.2)
        else if wr.1 = ['f', 'a', 'l', 's', 'e'] then some (.bool false, wr.2)
        else if wr.1 = ['n', 'u', 'l', 'l'] then some (.none, wr.2)
        else Option.none

/-- Modelled from the spec: comma-separated elements of a list literal,
up to the closing `]`. -/
def parseItems : Nat → List Char → Option (List Value × List Char)
  | 0, _ => Option.none
  | fuel + 1, cs =>
    (parseLit fuel cs).bind fun vr =>
      match skipWs vr.2 with
      | ']' :: r' => some ([vr.1], r')
      | ',' :: r' => (parseItems fuel r').map fun vs => (vr.1 :: vs.1, vs.2)
      | _ => Option.none

/-- Modelled from the spec: comma-separated `key: value` pairs of a
mapping literal, up to the closing brace. -/
def parsePairs : Nat → List Char → Option (List (Value × Value) × List Char)
  | 0, _ => Option.none
  | fuel + 1, cs =>
    (parseLit fuel cs).bind fun kr =>
      match skipWs kr.2 with
      | ':' :: r' =>
        (parseLit fuel r').bind fun vr =>
          match skipWs vr.2 with
          | c :: r'' =>
            if c = Char.ofNat 125 then some ([(kr.1, vr.1)], r'')
            else if c = ',' then
              (parsePairs fuel r'').map fun ps => ((kr.1, vr.1) :: ps.1, ps.2)
            else Option.none
          | [] => Option.none
      | _ => Option.none

end

/-- Modelled from the spec: parse a whole right-hand side as a literal;
fails when the text is not a single literal followed only by whitespace. -/
def parse_literal (s : String) : Option Value :=
  match parseLit (2 * s.data.length + 2) s.data with
  | some (v, rest) => if skipWs rest = [] then some v else Option.none
  | Option.none => Option.none

/-- Modelled from the spec: construction of the user variable table from
the `variables` input of the invocation (spec §4.2 / §6) — a feature of
the repository's second engine variant, which is not included under
`src/`: "parse each non-empty line of a variables block as `left = right`;
the right-hand side is evaluated using a literal-only parser ... and, on
failure, falls back to the trimmed raw string".  Lines without an `=` are
skipped; the resulting ordered table keeps later lines after earlier ones
(last write wins at lookup). -/
def parse_variables (block : String) : List (String × Value) :=
  (splitOnChar (Char.ofNat 10) block.data).filterMap fun line =>
    if trimChars line = [] then Option.none
    else
      match splitFirstEq line with
      | some lr =>
        let rhs := String.mk (trimChars lr.2)
        some (String.mk (trimChars lr.1),
          match parse_literal rhs with
          | some v => v
          | Option.none => .str rhs)
      | Option.none => Option.none

/-- Last-write-wins lookup in the ordered variable table. -/
def lookupLast (vars : List (String × Value)) (name : String) : Option Value :=
  match vars with
  | [] => Option.none
  | kv :: rest =>
    match lookupLast rest name with
    | some v => some v
    | Option.none => if kv.1 = name then some kv.2 else Option.none

/-- Modelled from the spec: identifier resolution of the
variables-supporting engine variant (spec §3 / §4.2): the user table is
overlaid with the fixed bindings `true`, `false`, `null` and `VALUE` (the
subject), and an identifier bound by neither fails with the spec's
`UnboundNameError`. -/
def resolve_name (subject : Value) (vars : List (String × Value))
    (name : String) : Except Err Value :=
  if name = "true" then .ok (.bool true)
  else if name = "false" then .ok (.bool false)
  else if name = "null" then .ok .none
  else if name = "VALUE" then .ok subject
  else
    match lookupLast vars name with
    | some v => .ok v
    | Option.none => .error (.nameError name)

/-- AST of the expression `false and undefined_name` (an `ast.BoolOp` with
`ast.And` over the two names). -/
def astFalseAndUndefined : Node :=
  .boolOp .band (.cons (.name "false") (.cons (.name "undefined_name") .nil))

/-- AST of `1 < 2 < 3` (one `ast.Compare` with two links). -/
def astChain123 : Node :=
  .compare (.constant (.int 1))
    (.cons .lt (.constant (.int 2)) (.cons .lt (.constant (.int 3)) .nil))

/-- AST of `1 < 3 < 2`. -/
def astChain132 : Node :=
  .compare (.constant (.int 1))
    (.cons .lt (.constant (.int 3)) (.cons .lt (.constant (.int 2)) .nil))

/-- AST of `1 < 2 and 2 < 3` (an `ast.BoolOp` over two comparisons). -/
def astConj : Node :=
  .boolOp .band
    (.cons (.compare (.constant (.int 1)) (.cons .lt (.constant (.int 2)) .nil))
      (.cons (.compare (.constant (.int 2)) (.cons .lt (.constant (.int 3)) .nil)) .nil))

/-- AST of `"ABC" == "abc"`. -/
def astCiEq : Node :=
  .compare (.constant (.str "ABC")) (.cons .eq (.constant (.str "abc")) .nil)

/-- AST of `1 < 0 < undefined_name`: the first link is already false, so
the `all(...)` generator must stop before evaluating the unresolvable
name. -/
def astShortChain : Node :=
  .compare (.constant (.int 1))
    (.cons .lt (.constant (.int 0)) (.cons .lt (.name "undefined_name") .nil))

/-- AST of `unknown_fn(1, 2)`. -/
def astUnknownCall : Node :=
  .call "unknown_fn" (.cons (.constant (.int 1)) (.cons (.constant (.int 2)) .nil))

/-- AST of a condition entry: the dict display whose `condition` key holds
the given expression string and whose `return` key holds the given value
(as a constant). -/
def entryNode (cond : String) (ret : Value) : Node :=
  .dictLit (.cons (.constant (.str "condition")) (.constant (.str cond))
    (.cons (.constant (.str "return")) (.constant ret) .nil))

/-- AST of a default entry: the dict display with one `else` key. -/
def elseNode (v : Value) : Node :=
  .dictLit (.cons (.constant (.str "else")) (.constant v) .nil)

/-- AST of a three-entry conditions list display: two condition entries
and a trailing default. -/
def condList3 (c1 : String) (r1 : Value) (c2 : String) (r2 : Value)
    (els : Value) : Node :=
  .listLit (.cons (entryNode c1 r1) (.cons (entryNode c2 r2) (.cons (elseNode els) .nil)))

/-- The parse oracle (`ast.parse`) restricted to the concrete texts the
theorems use.  A tag starting with `conds` stands for the Python list
display of a conditions list, which cannot be quoted verbatim here; its
AST spells out the exact list:
`conds15` / `condsNeg5` — the branch-selection example after the subject
(15 resp. -5) has been substituted for `VALUE`;
`condsValue` — the same conditions with the literal strings
`VALUE > 10` / `VALUE > 0`;
`condsMalformed` — a matching first entry, then an entry with no keys at
all, then a default;
`condsNoElse` — a matching first entry and a last entry without an `else`
key;
`condsCi` — one entry testing string equality of `"ABC"` and `"abc"`
returning 1, default 2.
Expression strings are mapped to exactly the AST `ast.parse` yields for
them. -/
def demoParse : String → Except Err Node := fun s =>
  if s = "conds15" then .ok (condList3 "15 > 10" (.str "big") "15 > 0" (.str "small") (.str "none"))
  else if s = "condsNeg5" then .ok (condList3 "-5 > 10" (.str "big") "-5 > 0" (.str "small") (.str "none"))
  else if s = "condsValue" then .ok (condList3 "VALUE > 10" (.str "big") "VALUE > 0" (.str "small") (.str "none"))
  else if s = "condsMalformed" then
    .ok (.listLit (.cons (entryNode "true" (.str "A"))
      (.cons (.dictLit .nil) (.cons (elseNode (.str "Z")) .nil))))
  else if s = "condsNoElse" then
    .ok (.listLit (.cons (entryNode "true" (.str "A")) (.cons (.dictLit .nil) .nil)))
  else if s = "condsCi" then
    .ok (.listLit (.cons (entryNode "\"ABC\" == \"abc\"" (.int 1))
      (.cons (elseNode (.int 2)) .nil)))
  else if s = "15 > 10" then
    .ok (.compare (.constant (.int 15)) (.cons .gt (.constant (.int 10)) .nil))
  else if s = "15 > 0" then
    .ok (.compare (.constant (.int 15)) (.cons .gt (.constant (.int 0)) .nil))
  else if s = "-5 > 10" then
    .ok (.compare (.unaryOp .usub (.constant (.int 5))) (.cons .gt (.constant (.int 10)) .nil))
  else if s = "-5 > 0" then
    .ok (.compare (.unaryOp .usub (.constant (.int 5))) (.cons .gt (.constant (.int 0)) .nil))
  else if s = "VALUE > 10" then
    .ok (.compare (.name "VALUE") (.cons .gt (.constant (.int 10)) .nil))
  else if s = "VALUE > 0" then
    .ok (.compare (.name "VALUE") (.cons .gt (.constant (.int 0)) .nil))
  else if s = "true" then .ok (.name "true")
  else if s = "\"ABC\" == \"abc\"" then .ok astCiEq
  else .error (.syntaxError s)

/-- The variables block of the round-trip example of the spec (§8). -/
def exampleVariablesBlock : String := "x = 5\ny = \"hello\"\nz = true\nw = foo-bar"

/-- The runtime value of an evaluated condition entry (what `get_value`
produces for `entryNode`). -/
def entryVal (cond : String) (ret : Value) : Value :=
  .dict (.cons (.str "condition") (.str cond) (.cons (.str "return") ret .nil))

/-- The runtime value of an evaluated default entry. -/
def elseVal (v : Value) : Value := .dict (.cons (.str "else") v .nil)

/-! Helper lemmas about `Except`, shared by the claim proofs. -/

/-- Reduce a bind on a success. -/
@[simp] theorem except_bind_ok {α β : Type} (a : α) (f : α → Except Err β) :
    (Except.ok a : Except Err α).bind f = f a := rfl

/-- Reduce a bind on a failure. -/
@[simp] theorem except_bind_error {α β : Type} (err : Err) (f : α → Except Err β) :
    (Except.error err : Except Err α).bind f = .error err := rfl

/-- Reduce a map on a success. -/
@[simp] theorem except_map_ok {α β : Type} (a : α) (f : α → β) :
    (Except.ok a : Except Err α).map f = .ok (f a) := rfl

/-- Reduce a map on a failure. -/
@[simp] theorem except_map_error {α β : Type} (err : Err) (f : α → β) :
    (Except.error err : Except Err α).map f = .error err := rfl

/-! Shared structural lemmas about the evaluator. -/

/-- A falsy accumulator absorbs the whole `and` fold. -/
theorem firstFalsyOrLast_falsy (w : Value) (ws : List Value)
    (h : truthy w = false) : firstFalsyOrLast w ws = w := by
  cases ws with
  | nil => rfl
  | cons w' ws' => simp [firstFalsyOrLast, h]

/-- A truthy accumulator absorbs the whole `or` fold. -/
theorem firstTruthyOrLast_truthy (w : Value) (ws : List Value)
    (h : truthy w = true) : firstTruthyOrLast w ws = w := by
  cases ws with
  | nil => rfl
  | cons w' ws' => simp [firstTruthyOrLast, h]

/-- When every operand evaluates, the `and` fold of `get_value` computes
the first falsy operand (or the last one). -/
theorem get_value_fold_band (e : Engine) (hband : e.ops.band = pyAnd) :
    ∀ (vs : NodeList) (acc : Value) (ws : ValueList),
    get_value_list e vs = .ok ws →
    get_value_fold e .band acc vs = .ok (firstFalsyOrLast acc ws.toList)
  | .nil, acc, ws => by
    intro h
    cases h
    rfl
  | .cons n t, acc, ws => by
    intro h
    unfold get_value_list at h
    cases hn : get_value e n with
    | error err => rw [hn] at h; simp at h
    | ok w =>
      rw [hn] at h
      cases ht : get_value_list e t with
      | error err => rw [ht] at h; simp at h
      | ok wt =>
        rw [ht] at h
        simp at h
        subst h
        unfold get_value_fold
        rw [hn]
        simp only [except_bind_ok]
        have happ : applyBool e .band acc w = pyAnd acc w := by
          simp [applyBool, hband]
        rw [happ]
        rw [get_value_fold_band e hband t (pyAnd acc w) wt ht]
        by_cases hacc : truthy acc = true
        · simp [ValueList.toList, firstFalsyOrLast, hacc, pyAnd]
        · have hacc' : truthy acc = false := by
            cases h' : truthy acc
            · rfl
            · exact absurd h' hacc
          simp [ValueList.toList, firstFalsyOrLast, hacc', pyAnd,
            firstFalsyOrLast_falsy acc wt.toList hacc']

/-- Dual of `get_value_fold_band` for `or`. -/
theorem get_value_fold_bor (e : Engine) (hbor : e.ops.bor = pyOr) :
    ∀ (vs : NodeList) (acc : Value) (ws : ValueList),
    get_value_list e vs = .ok ws →
    get_value_fold e .bor acc vs = .ok (firstTruthyOrLast acc ws.toList)
  | .nil, acc, ws => by
    intro h
    cases h
    rfl
  | .cons n t, acc, ws => by
    intro h
    unfold get_value_list at h
    cases hn : get_value e n with
    | error err => rw [hn] at h; simp at h
    | ok w =>
      rw [hn] at h
      cases ht : get_value_list e t with
      | error err => rw [ht] at h; simp at h
      | ok wt =>
        rw [ht] at h
        simp at h
        subst h
        unfold get_value_fold
        rw [hn]
        simp only [except_bind_ok]
        have happ : applyBool e .bor acc w = pyOr acc w := by
          simp [applyBool, hbor]
        rw [happ]
        rw [get_value_fold_bor e hbor t (pyOr acc w) wt ht]
        by_cases hacc : truthy acc = true
        · simp [ValueList.toList, firstTruthyOrLast, hacc, pyOr,
            firstTruthyOrLast_truthy acc wt.toList hacc]
        · have hacc' : truthy acc = false := by
            cases h' : truthy acc
            · rfl
            · exact absurd h' hacc
          simp [ValueList.toList, firstTruthyOrLast, hacc', pyOr]

/-- When evaluating the operand list fails, the fold fails with the same
error, whatever the accumulated value is — every operand is evaluated. -/
theorem get_value_fold_error (e : Engine) (op : BoolOperator) :
    ∀ (vs : NodeList) (acc : Value) (err : Err),
    get_value_list e vs = .error err →
    get_value_fold e op acc vs = .error err
  | .nil, acc, err => by intro h; simp [get_value_list] at h
  | .cons n t, acc, err => by
    intro h
    unfold get_value_list at h
    cases hn : get_value e n with
    | error err' =>
      rw [hn] at h
      simp at h
      subst h
      unfold get_value_fold
      rw [hn]
      rfl
    | ok w =>
      rw [hn] at h
      cases ht : get_value_list e t with
      | error err' =>
        rw [ht] at h
        simp at h
        subst h
        unfold get_value_fold
        rw [hn]
        simp only [except_bind_ok]
        exact get_value_fold_error e op t _ _ ht
      | ok wt => rw [ht] at h; simp at h

/-- When every link of a chained comparison evaluates, the generator walk
returns the conjunction of all pairwise results. -/
theorem get_value_chain_all (e : Engine) :
    ∀ (pairs : CmpList) (prev : Value) (rs : List Value),
    chain_results e prev pairs = .ok rs →
    get_value_chain e prev pairs = .ok (.bool (rs.all truthy))
  | .nil, prev, rs => by
    intro h
    cases h
    rfl
  | .cons op rhs rest, prev, rs => by
    intro h
    unfold chain_results at h
    cases hr : get_value e rhs with
    | error err => rw [hr] at h; simp at h
    | ok cur =>
      rw [hr] at h
      simp only [except_bind_ok] at h
      cases hc : applyCmp e op prev cur with
      | error err => rw [hc] at h; simp at h
      | ok r =>
        rw [hc] at h
        simp only [except_bind_ok] at h
        cases hrest : chain_results e cur rest with
        | error err => rw [hrest] at h; simp at h
        | ok rs' =>
          rw [hrest] at h
          simp at h
          subst h
          unfold get_value_chain
          rw [hr]
          simp only [except_bind_ok]
          rw [hc]
          simp only [except_bind_ok]
          by_cases htr : truthy r = true
          · rw [if_pos htr]
            rw [get_value_chain_all e rest cur rs' hrest]
            simp [htr]
          · have htr' : truthy r = false := by
              cases h' : truthy r
              · rfl
              · exact absurd h' htr
            rw [if_neg (by simp [htr'])]
            simp [htr']

/-- A prefix of links whose pairwise results are all truthy only moves the
"previous" value along: the walk over `p1 ++ rest` equals the walk over
`rest` from the final previous value of `p1`. -/
theorem get_value_chain_walk_through (e : Engine) :
    ∀ (p1 : CmpList) (l prev : Value) (rest : CmpList),
    chain_walk e l p1 = some prev →
    get_value_chain e l (p1.append rest) = get_value_chain e prev rest
  | .nil, l, prev, rest => by
    intro h
    cases h
    rfl
  | .cons op rhs t, l, prev, rest => by
    intro h
    unfold chain_walk at h
    cases hr : get_value e rhs with
    | error err => rw [hr] at h; simp at h
    | ok cur =>
      rw [hr] at h
      simp only at h
      cases hc : applyCmp e op l cur with
      | error err => rw [hc] at h; simp at h
      | ok r =>
        rw [hc] at h
        simp only at h
        by_cases htr : truthy r = true
        · rw [if_pos htr] at h
          have hstep : get_value_chain e l (CmpList.cons op rhs (t.append rest)) =
              (get_value e rhs).bind fun cur =>
                (applyCmp e op l cur).bind fun r =>
                  if truthy r = true then get_value_chain e cur (t.append rest)
                  else .ok (.bool false) := rfl
          show get_value_chain e l (.cons op rhs (t.append rest)) = get_value_chain e prev rest
          rw [hstep, hr]
          simp only [except_bind_ok]
          rw [hc]
          simp only [except_bind_ok]
          rw [if_pos htr]
          exact get_value_chain_walk_through e t cur prev rest h
        · rw [if_neg htr] at h
          simp at h

/-- Entries stepped over by the scan do not affect its outcome. -/
theorem first_match_skip (parse : String → Except Err Node) (e : Engine) :
    ∀ (pre rest : List Value) (z : Value),
    allSkipped parse e pre = true →
    first_match parse e (pre ++ rest) z = first_match parse e rest z := by
  intro pre
  induction pre with
  | nil => intro rest z _; rfl
  | cons c pre' ih =>
    intro rest z h
    unfold allSkipped at h
    have h1 : entrySkipped parse e c = true := by
      cases h' : entrySkipped parse e c
      · rw [h'] at h; simp at h
      · rfl
    have h2 : allSkipped parse e pre' = true := by
      cases h' : allSkipped parse e pre'
      · rw [h'] at h; simp at h
      · rfl
    unfold entrySkipped at h1
    cases hs : subscript c (.str "condition") with
    | error err => rw [hs] at h1; simp at h1
    | ok cond =>
      rw [hs] at h1
      simp only at h1
      cases hev : evalCondition parse e cond with
      | error err => rw [hev] at h1; simp at h1
      | ok b =>
        rw [hev] at h1
        simp at h1
        have hstep : first_match parse e (c :: (pre' ++ rest)) z =
            (subscript c (.str "condition")).bind fun cond =>
              (evalCondition parse e cond).bind fun b =>
                if truthy b = true then subscript c (.str "return")
                else first_match parse e (pre' ++ rest) z := rfl
        show first_match parse e (c :: (pre' ++ rest)) z = first_match parse e rest z
        rw [hstep, hs]
        simp only [except_bind_ok]
        rw [hev]
        simp only [except_bind_ok]
        rw [if_neg (by simp [h1])]
        exact ih rest z h2

/-- C1, counterexample: the claim says `eval("false and undefined_name")`
returns the falsy `false` without raising because the right operand is
never evaluated.  In the source, `ast.BoolOp` is evaluated by
`reduce(op, map(self.get_value, node.values))`, and `functools.reduce`
consumes the whole (lazy) `map`, evaluating every operand; resolving
`undefined_name` via `json.loads` therefore raises, and the engine
returns that error instead of `false`. -/
theorem and_undefined_name_raises :
    get_value plainEngine astFalseAndUndefined = .error (.nameError "undefined_name") := rfl

/-- C1, amended: boolean `and`/`or` over N≥2 operands is a pairwise
left-fold **without** short-circuit: every operand expression is evaluated
left to right; when all succeed the result value is the first falsy
(`and`) resp. first truthy (`or`) operand — the deciding operand's
original value, not a canonical boolean — or the last operand when none
decides; an error in any operand propagates even when an earlier operand
already decided the value. -/
theorem boolop_reduce_no_short_circuit :
    (∀ (e : Engine) (v : Node) (vs : NodeList) (w : Value) (ws : ValueList),
      e.ops.band = pyAnd →
      get_value e v = .ok w → get_value_list e vs = .ok ws →
      get_value e (.boolOp .band (.cons v vs)) = .ok (firstFalsyOrLast w ws.toList))
    ∧ (∀ (e : Engine) (v : Node) (vs : NodeList) (w : Value) (ws : ValueList),
      e.ops.bor = pyOr →
      get_value e v = .ok w → get_value_list e vs = .ok ws →
      get_value e (.boolOp .bor (.cons v vs)) = .ok (firstTruthyOrLast w ws.toList))
    ∧ (∀ (e : Engine) (op : BoolOperator) (v : Node) (vs : NodeList) (w : Value) (err : Err),
      get_value e v = .ok w → get_value_list e vs = .error err →
      get_value e (.boolOp op (.cons v vs)) = .error err) := by
  refine ⟨?_, ?_, ?_⟩
  · intro e v vs w ws hband hv hvs
    have hstep : get_value e (.boolOp .band (.cons v vs)) =
        (get_value e v).bind fun v0 => get_value_fold e .band v0 vs := rfl
    rw [hstep, hv]
    simp only [except_bind_ok]
    exact get_value_fold_band e hband vs w ws hvs
  · intro e v vs w ws hbor hv hvs
    have hstep : get_value e (.boolOp .bor (.cons v vs)) =
        (get_value e v).bind fun v0 => get_value_fold e .bor v0 vs := rfl
    rw [hstep, hv]
    simp only [except_bind_ok]
    exact get_value_fold_bor e hbor vs w ws hvs
  · intro e op v vs w err hv hvs
    have hstep : get_value e (.boolOp op (.cons v vs)) =
        (get_value e v).bind fun v0 => get_value_fold e op v0 vs := rfl
    rw [hstep, hv]
    simp only [except_bind_ok]
    exact get_value_fold_error e op vs w err hvs

/-- Witness for the amended C1 theorem at concrete inputs: `0 and "x"`
folds to the original falsy `0`; `"" or "a"` folds to `"a"`; and an
erroring second operand propagates past an already-falsy first operand. -/
theorem boolop_reduce_no_short_circuit_witness :
    get_value plainEngine (.boolOp .band
        (.cons (.constant (.int 0)) (.cons (.constant (.str "x")) .nil))) = .ok (.int 0)
    ∧ get_value plainEngine (.boolOp .bor
        (.cons (.constant (.str "")) (.cons (.constant (.str "a")) .nil))) = .ok (.str "a")
    ∧ get_value plainEngine (.boolOp .band
        (.cons (.constant (.int 0)) (.cons (.name "nope") .nil))) = .error (.nameError "nope") :=
  ⟨boolop_reduce_no_short_circuit.1 plainEngine (.constant (.int 0))
      (.cons (.constant (.str "x")) .nil) (.int 0) (.cons (.str "x") .nil) rfl rfl rfl,
   boolop_reduce_no_short_circuit.2.1 plainEngine (.constant (.str ""))
      (.cons (.constant (.str "a")) .nil) (.str "") (.cons (.str "a") .nil) rfl rfl rfl,
   boolop_reduce_no_short_circuit.2.2 plainEngine .band (.constant (.int 0))
      (.cons (.name "nope") .nil) (.int 0) (.nameError "nope") rfl rfl⟩

/-- C4, counterexample: the identifier `VALUE` is not a binding of the
engine — `get_value` resolves names with `json.loads(node.id)`, and
`VALUE` is not a JSON document, so evaluating it raises instead of
producing the subject value (here the claim would demand the subject,
whatever it is, e.g. 7). -/
theorem value_identifier_unbound :
    get_value plainEngine (.name "VALUE") = .error (.nameError "VALUE") := rfl

/-- C4, amended: in every engine state, the identifiers `true`, `false`
and `null` evaluate to the boolean true, the boolean false and the null
value (they are the JSON literals `json.loads` accepts); the identifier
`VALUE` is **not** bound and fails with a name-resolution error — the
subject value reaches expressions only through the textual `#{...}`
substitution of `load_conditions_with_values`, not as an identifier. -/
theorem name_resolution_via_json_literals (e : Engine) :
    get_value e (.name "true") = .ok (.bool true)
    ∧ get_value e (.name "false") = .ok (.bool false)
    ∧ get_value e (.name "null") = .ok .none
    ∧ get_value e (.name "VALUE") = .error (.nameError "VALUE") :=
  ⟨rfl, rfl, rfl, rfl⟩

/-- C6: a chained comparison whose links all evaluate equals the logical
AND of the left-to-right pairwise comparisons (each comparison's right
operand becoming the next link's left operand, as `chain_results`
spells out); in particular `1 < 2 < 3` is true, `1 < 3 < 2` is false and
`1 < 2 and 2 < 3` is true. -/
theorem chained_comparison_pairwise_and :
    (∀ (e : Engine) (lnode : Node) (l : Value) (pairs : CmpList) (rs : List Value),
      get_value e lnode = .ok l → chain_results e l pairs = .ok rs →
      get_value e (.compare lnode pairs) = .ok (.bool (rs.all truthy)))
    ∧ get_value plainEngine astChain123 = .ok (.bool true)
    ∧ get_value plainEngine astChain132 = .ok (.bool false)
    ∧ get_value plainEngine astConj = .ok (.bool true) := by
  refine ⟨?_, rfl, rfl, rfl⟩
  intro e lnode l pairs rs hl hres
  have hstep : get_value e (.compare lnode pairs) =
      (get_value e lnode).bind fun lv => get_value_chain e lv pairs := rfl
  rw [hstep, hl]
  simp only [except_bind_ok]
  exact get_value_chain_all e pairs l rs hres

/-- Witness for C6: the general pairwise-AND theorem applied to
`1 < 3 < 2`, whose links evaluate to true and false. -/
theorem chained_comparison_pairwise_and_witness :
    get_value plainEngine astChain132 = .ok (.bool false) :=
  chained_comparison_pairwise_and.1 plainEngine (.constant (.int 1)) (.int 1) _
    [.bool true, .bool false] rfl rfl

/-- C7: with the `case_insensitive` flag, `==` compares the lower-cased
printed (`repr`) forms, so `"ABC" == "abc"` evaluates to true; without
the flag it is structural value equality and the same expression
evaluates to false; and under the flag, `!=` is the logical negation of
the overridden `==`. -/
theorem case_insensitive_equality :
    get_value ciEngine astCiEq = .ok (.bool true)
    ∧ get_value plainEngine astCiEq = .ok (.bool false)
    ∧ (∀ (x y : Value) (b : Bool),
        ciEngine.ops.eq x y = .ok (.bool b) →
        ciEngine.ops.ne x y = .ok (.bool (!b))) := by
  refine ⟨rfl, rfl, ?_⟩
  intro x y b h
  have he : ciEngine.ops.eq x y = Except.ok (Value.bool (ciEqB x y)) := rfl
  rw [he] at h
  simp at h
  subst h
  rfl

/-- Witness for C7's negation clause at `"ABC"`/`"abc"`. -/
theorem case_insensitive_equality_witness :
    ciEngine.ops.ne (.str "ABC") (.str "abc") = .ok (.bool false) :=
  case_insensitive_equality.2.2 (.str "ABC") (.str "abc") true rfl

/-- C9: a call whose target is not in the function registry fails with the
registry's `KeyError` (the spec's `UnknownFunctionError`, a distinct
failure from a parse `SyntaxError`), and this happens for every flag set
and before the arguments are even evaluated (the source looks the
function up first); a call to a registered name applies the registered
function to the evaluated arguments. -/
theorem unknown_function_keyerror :
    (∀ (classOps : OperatorFunctions) (flags : List String) (name : String) (args : NodeList),
      ¬ name = "regex_match" →
      get_value ⟨(handle_flags classOps flags).1, (handle_flags classOps flags).2⟩
        (.call name args) = .error (.unknownFunction name))
    ∧ (∀ (e : Engine) (name : String) (fn : List Value → Except Err Value) (args : NodeList),
      e.functions name = some fn →
      get_value e (.call name args) = (get_value_list e args).bind fun vs => fn vs.toList) := by
  constructor
  · intro classOps flags name args hne
    have hfns : (handle_flags classOps flags).2 name = Option.none := by
      unfold handle_flags
      by_cases hci : ("case_insensitive" ∈ flags)
      · simp [hci, hne]
      · simp [hci, hne]
    have hstep : get_value ⟨(handle_flags classOps flags).1, (handle_flags classOps flags).2⟩
        (.call name args) =
        (match (handle_flags classOps flags).2 name with
         | some fn => (get_value_list ⟨(handle_flags classOps flags).1,
             (handle_flags classOps flags).2⟩ args).bind fun vs => fn vs.toList
         | Option.none => .error (.unknownFunction name)) := rfl
    rw [hstep, hfns]
  · intro e name fn args h
    have hstep : get_value e (.call name args) =
        (match e.functions name with
         | some fn => (get_value_list e args).bind fun vs => fn vs.toList
         | Option.none => .error (.unknownFunction name)) := rfl
    rw [hstep, h]

/-- Witness for C9: `unknown_fn(1, 2)` fails with the unknown-function
error, not a parse failure. -/
theorem unknown_function_keyerror_witness :
    get_value plainEngine astUnknownCall = .error (.unknownFunction "unknown_fn") :=
  unknown_function_keyerror.1 operator_functions [] "unknown_fn"
    (.cons (.constant (.int 1)) (.cons (.constant (.int 2)) .nil)) (by decide)

/-- C10: in a chained comparison, once a pairwise link evaluates falsy the
remaining comparand expressions are never evaluated — whatever follows,
even links whose comparands would raise — and the chain's overall result
is the canonical false. -/
theorem chain_short_circuit :
    ∀ (e : Engine) (lnode : Node) (l : Value) (p1 : CmpList) (prev : Value)
      (op : CmpOperator) (rhs : Node) (cur r : Value) (p2 : CmpList),
    get_value e lnode = .ok l →
    chain_walk e l p1 = some prev →
    get_value e rhs = .ok cur →
    applyCmp e op prev cur = .ok r →
    truthy r = false →
    get_value e (.compare lnode (p1.append (.cons op rhs p2))) = .ok (.bool false) := by
  intro e lnode l p1 prev op rhs cur r p2 hl hwalk hr hc htr
  have hstep : get_value e (.compare lnode (p1.append (.cons op rhs p2))) =
      (get_value e lnode).bind fun lv =>
        get_value_chain e lv (p1.append (.cons op rhs p2)) := rfl
  rw [hstep, hl]
  simp only [except_bind_ok]
  rw [get_value_chain_walk_through e p1 l prev _ hwalk]
  have hstep2 : get_value_chain e prev (.cons op rhs p2) =
      (get_value e rhs).bind fun cur => (applyCmp e op prev cur).bind fun rr =>
        if truthy rr = true then get_value_chain e cur p2 else .ok (.bool false) := rfl
  rw [hstep2, hr]
  simp only [except_bind_ok]
  rw [hc]
  simp only [except_bind_ok]
  rw [if_neg (by simp [htr])]

/-- Witness for C10: `1 < 0 < undefined_name` evaluates to false — the
first link is already false, so the unresolvable name is never reached. -/
theorem chain_short_circuit_witness :
    get_value plainEngine astShortChain = .ok (.bool false) :=
  chain_short_circuit plainEngine (.constant (.int 1)) (.int 1) .nil (.int 1) .lt
    (.constant (.int 0)) (.int 0) (.bool false)
    (.cons .lt (.name "undefined_name") .nil) rfl rfl rfl rfl rfl

/-- C2 (demonstrating the state leak): `handle_flags` executes
`self.operator_functions |= {...}`, which updates the **class-level**
dictionary in place, so an invocation with `case_insensitive` changes the
equality used by a later invocation without that flag.  On the conditions
list `[...]` (tag `condsCi`: one entry whose condition is
`"ABC" == "abc"` returning 1, default 2), a fresh process without the
flag selects 2, but the same invocation run after a `case_insensitive`
invocation selects 1 — the result depends on the earlier call,
contradicting the claim. -/
theorem case_insensitive_flag_leaks_across_invocations :
    (IfElif.run (IfElif.run operator_functions demoParse "condsCi" ["case_insensitive"]).2
        demoParse "condsCi" []).1 = .ok (.int 1)
    ∧ (IfElif.run operator_functions demoParse "condsCi" []).1 = .ok (.int 2) :=
  ⟨rfl, rfl⟩

/-- C3 (modelled from the spec, the variables-supporting variant being
outside `src/`): the block `x = 5`, `y = "hello"`, `z = true`,
`w = foo-bar` yields an environment where `x` resolves to the number 5,
`y` to the string `"hello"`, `z` to the boolean true, and the unparsable
right-hand side `foo-bar` falls back to the raw string — for every
subject value (a bare identifier evaluates through `resolve_name`, the
spec's `resolve`). -/
theorem variables_block_round_trip (subject : Value) :
    resolve_name subject (parse_variables exampleVariablesBlock) "x" = .ok (.int 5)
    ∧ resolve_name subject (parse_variables exampleVariablesBlock) "y" = .ok (.str "hello")
    ∧ resolve_name subject (parse_variables exampleVariablesBlock) "z" = .ok (.bool true)
    ∧ resolve_name subject (parse_variables exampleVariablesBlock) "w" = .ok (.str "foo-bar") :=
  ⟨rfl, rfl, rfl, rfl⟩

/-- C5, counterexample: the claim's own example writes the condition
strings `VALUE > 10` / `VALUE > 0`; in the engine under `src/` the
identifier `VALUE` is unresolvable (`json.loads`), so with subject 15
this conditions list does not select `"big"` — evaluating the very first
condition raises a name-resolution error. -/
theorem value_conditions_example_raises :
    parse_conditions demoParse plainEngine "condsValue" = .error (.nameError "VALUE") := rfl

/-- C5, amended: branch selection is first-match-wins in list order —
if every entry before `c` is stepped over (condition present, evaluating
falsy) and `c`'s condition evaluates truthy, the selected value is `c`'s
`return` value, whatever the later entries are (they are never read or
evaluated); when every entry is stepped over, the default's `else` value
is selected.  The claim's example holds once the subject has been
substituted textually for `VALUE` (the `#{...}` templating): with subject
15 the conditions select `"big"`, with subject -5 they select `"none"`. -/
theorem first_match_wins_amended :
    (∀ (parse : String → Except Err Node) (e : Engine) (t : String) (v : Value)
       (pre : List Value) (c : Value) (post : List Value) (d z r : Value),
      evaluate parse e t = .ok v →
      pyUnpackLast v = .ok (pre ++ c :: post, d) →
      subscript d (.str "else") = .ok z →
      allSkipped parse e pre = true →
      entryMatches parse e c = true →
      subscript c (.str "return") = .ok r →
      parse_conditions parse e t = .ok r)
    ∧ (∀ (parse : String → Except Err Node) (e : Engine) (t : String) (v : Value)
       (conds : List Value) (d z : Value),
      evaluate parse e t = .ok v →
      pyUnpackLast v = .ok (conds, d) →
      subscript d (.str "else") = .ok z →
      allSkipped parse e conds = true →
      parse_conditions parse e t = .ok z) := by
  constructor
  · intro parse e t v pre c post d z r hev hun hz hpre hc hr
    unfold parse_conditions
    rw [hev]
    simp only [except_bind_ok]
    rw [hun]
    simp only [except_bind_ok]
    rw [hz]
    simp only [except_bind_ok]
    rw [first_match_skip parse e pre (c :: post) z hpre]
    unfold entryMatches at hc
    cases hs : subscript c (.str "condition") with
    | error err => rw [hs] at hc; simp at hc
    | ok cond =>
      rw [hs] at hc
      simp only at hc
      cases hb : evalCondition parse e cond with
      | error err => rw [hb] at hc; simp at hc
      | ok b =>
        rw [hb] at hc
        simp at hc
        have hstep : first_match parse e (c :: post) z =
            (subscript c (.str "condition")).bind fun cond =>
              (evalCondition parse e cond).bind fun b =>
                if truthy b = true then subscript c (.str "return")
                else first_match parse e post z := rfl
        rw [hstep, hs]
        simp only [except_bind_ok]
        rw [hb]
        simp only [except_bind_ok]
        rw [if_pos hc]
        exact hr
  · intro parse e t v conds d z hev hun hz hall
    unfold parse_conditions
    rw [hev]
    simp only [except_bind_ok]
    rw [hun]
    simp only [except_bind_ok]
    rw [hz]
    simp only [except_bind_ok]
    have hskip := first_match_skip parse e conds [] z hall
    rw [List.append_nil] at hskip
    rw [hskip]
    rfl

/-- Witness for the amended C5 theorem: the templated example — subject 15
selects `"big"` via its first, matching entry; subject -5 exhausts both
entries and selects the default `"none"`. -/
theorem first_match_wins_amended_witness :
    parse_conditions demoParse plainEngine "conds15" = .ok (.str "big")
    ∧ parse_conditions demoParse plainEngine "condsNeg5" = .ok (.str "none") :=
  ⟨first_match_wins_amended.1 demoParse plainEngine "conds15"
      (.list (.cons (entryVal "15 > 10" (.str "big"))
        (.cons (entryVal "15 > 0" (.str "small"))
          (.cons (elseVal (.str "none")) .nil))))
      [] (entryVal "15 > 10" (.str "big")) [entryVal "15 > 0" (.str "small")]
      (elseVal (.str "none")) (.str "none") (.str "big")
      rfl rfl rfl rfl rfl rfl,
   first_match_wins_amended.2 demoParse plainEngine "condsNeg5"
      (.list (.cons (entryVal "-5 > 10" (.str "big"))
        (.cons (entryVal "-5 > 0" (.str "small"))
          (.cons (elseVal (.str "none")) .nil))))
      [entryVal "-5 > 10" (.str "big"), entryVal "-5 > 0" (.str "small")]
      (elseVal (.str "none")) (.str "none")
      rfl rfl rfl rfl⟩

/-- C8, counterexample: the claim says a condition list containing a
non-last element lacking condition/return keys always fails and never
returns a selected value.  On
`[{'condition': 'true', 'return': 'A'}, {}, {'else': 'Z'}]`
(tag `condsMalformed`) the first entry matches and the generator stops
before ever reading the malformed middle entry: the engine silently
returns `'A'`. -/
theorem malformed_middle_entry_skipped :
    parse_conditions demoParse plainEngine "condsMalformed" = .ok (.str "A") := rfl

/-- C8, amended: malformation checking is partly eager, partly lazy.
Always fatal: a conditions value that does not unpack (not an iterable,
or empty), and a last element without an `else` key — the default is
extracted eagerly (it is an argument of `next`), so this fails even when
an earlier condition would match.  Lazy: a non-last element lacking its
`condition` key, or a matching entry lacking its `return` key, fails only
when the scan reaches it (every earlier entry stepped over); an entry
after the first match is never examined (see the counterexample). -/
theorem malformed_condition_list_amended :
    (∀ (parse : String → Except Err Node) (e : Engine) (t : String) (v : Value) (err : Err),
      evaluate parse e t = .ok v →
      pyUnpackLast v = .error err →
      parse_conditions parse e t = .error err)
    ∧ (∀ (parse : String → Except Err Node) (e : Engine) (t : String) (v : Value)
       (conds : List Value) (d : Value) (err : Err),
      evaluate parse e t = .ok v →
      pyUnpackLast v = .ok (conds, d) →
      subscript d (.str "else") = .error err →
      parse_conditions parse e t = .error err)
    ∧ (∀ (parse : String → Except Err Node) (e : Engine) (t : String) (v : Value)
       (pre : List Value) (c : Value) (post : List Value) (d z : Value) (err : Err),
      evaluate parse e t = .ok v →
      pyUnpackLast v = .ok (pre ++ c :: post, d) →
      subscript d (.str "else") = .ok z →
      allSkipped parse e pre = true →
      subscript c (.str "condition") = .error err →
      parse_conditions parse e t = .error err)
    ∧ (∀ (parse : String → Except Err Node) (e : Engine) (t : String) (v : Value)
       (pre : List Value) (c : Value) (post : List Value) (d z cond b : Value) (err : Err),
      evaluate parse e t = .ok v →
      pyUnpackLast v = .ok (pre ++ c :: post, d) →
      subscript d (.str "else") = .ok z →
      allSkipped parse e pre = true →
      subscript c (.str "condition") = .ok cond →
      evalCondition parse e cond = .ok b →
      truthy b = true →
      subscript c (.str "return") = .error err →
      parse_conditions parse e t = .error err) := by
  refine ⟨?_, ?_, ?_, ?_⟩
  · intro parse e t v err hev hun
    unfold parse_conditions
    rw [hev]
    simp only [except_bind_ok]
    rw [hun]
    rfl
  · intro parse e t v conds d err hev hun hz
    unfold parse_conditions
    rw [hev]
    simp only [except_bind_ok]
    rw [hun]
    simp only [except_bind_ok]
    rw [hz]
    rfl
  · intro parse e t v pre c post d z err hev hun hz hpre hs
    unfold parse_conditions
    rw [hev]
    simp only [except_bind_ok]
    rw [hun]
    simp only [except_bind_ok]
    rw [hz]
    simp only [except_bind_ok]
    rw [first_match_skip parse e pre (c :: post) z hpre]
    have hstep : first_match parse e (c :: post) z =
        (subscript c (.str "condition")).bind fun cond =>
          (evalCondition parse e cond).bind fun b =>
            if truthy b = true then subscript c (.str "return")
            else first_match parse e post z := rfl
    rw [hstep, hs]
    rfl
  · intro parse e t v pre c post d z cond b err hev hun hz hpre hs hb htr hr
    unfold parse_conditions
    rw [hev]
    simp only [except_bind_ok]
    rw [hun]
    simp only [except_bind_ok]
    rw [hz]
    simp only [except_bind_ok]
    rw [first_match_skip parse e pre (c :: post) z hpre]
    have hstep : first_match parse e (c :: post) z =
        (subscript c (.str "condition")).bind fun cond =>
          (evalCondition parse e cond).bind fun b =>
            if truthy b = true then subscript c (.str "return")
            else first_match parse e post z := rfl
    rw [hstep, hs]
    simp only [except_bind_ok]
    rw [hb]
    simp only [except_bind_ok]
    rw [if_pos htr]
    exact hr

/-- Witness for the amended C8 theorem: a list whose last element lacks
the `else` key (tag `condsNoElse`) fails with the `KeyError` for that key
even though its first entry's condition (`true`) matches — the default is
extracted eagerly. -/
theorem malformed_condition_list_amended_witness :
    parse_conditions demoParse plainEngine "condsNoElse"
      = .error (.keyError (pyRepr (.str "else"))) :=
  malformed_condition_list_amended.2.1 demoParse plainEngine "condsNoElse"
    (.list (.cons (entryVal "true" (.str "A")) (.cons (.dict .nil) .nil)))
    [entryVal "true" (.str "A")] (.dict .nil) (.keyError (pyRepr (.str "else")))
    rfl rfl rfl
